import Mathlib

/-!
Shallow embedding of the kotomi-ui widgets:
the editable grid of src/components/table/Table.tsx and the lazily
loaded tree of the unnamed tree source file.

JavaScript objects used as query parameters and rows are modelled as
association lists of string keys and primitive values; object spread
`\x7b...a, ...b\x7d` is modelled by folding key writes of `b` over `a`,
so that a later spread wins on key collision, exactly as in JS.
-/

namespace Kotomi

/-- Primitive JSON-like value stored in a parameter object or a row field. -/
inductive JValue where
  | jnum (n : Int)
  | jstr (s : String)
  | jbool (b : Bool)
deriving DecidableEq

/-- A JavaScript object, as an ordered association list over string keys. -/
abbrev Param := List (String × JValue)

/-- Property read `o[k]`: the value at the first occurrence of key `k`. -/
def objGet : Param → String → Option JValue
  | [], _ => none
  | (k', v) :: rest, k => if k' = k then some v else objGet rest k

/-- Property write as object spread performs it: an existing key is
overwritten in place, a new key is appended at the end. -/
def objSet : Param → String → JValue → Param
  | [], k, v => [(k, v)]
  | (k', v') :: rest, k, v =>
    if k' = k then (k, v) :: rest else (k', v') :: objSet rest k v

/-- Object spread `\x7b...a, ...b\x7d`: every entry of `b` is written over `a`
in order, so keys of `b` win on collision. -/
def spread2 (a b : Param) : Param :=
  b.foldl (fun acc kv => objSet acc kv.1 kv.2) a

/-- Spread of an optional object: spreading `undefined` adds nothing. -/
def spreadOpt (a : Param) (b : Option Param) : Param :=
  match b with
  | none => a
  | some o => spread2 a o

/-- Keys of a parameter object, in order. -/
def keys (o : Param) : List String := o.map Prod.fst

/-- Well-formedness of a parameter object: no duplicate keys.
Every object produced by the JavaScript runtime satisfies this. -/
def ParamWF (o : Param) : Prop := (keys o).Nodup

instance (o : Param) : Decidable (ParamWF o) := by
  unfold ParamWF; infer_instance

/-- First-defined choice on optional values, mirroring which layer of a
spread chain supplies a key. -/
def optOr (a b : Option JValue) : Option JValue :=
  match a with
  | some v => some v
  | none => b

theorem optOr_none_right (a : Option JValue) : optOr a none = a := by
  cases a <;> rfl

theorem objGet_objSet_self (o : Param) (k : String) (v : JValue) :
    objGet (objSet o k v) k = some v := by
  induction o with
  | nil => simp [objSet, objGet]
  | cons hd tl ih =>
    obtain ⟨k', v'⟩ := hd
    by_cases h : k' = k
    · simp [objSet, h, objGet]
    · simp [objSet, h, objGet, ih]

theorem objGet_objSet_ne (o : Param) (k k' : String) (v : JValue)
    (h : k ≠ k') : objGet (objSet o k v) k' = objGet o k' := by
  induction o with
  | nil => simp [objSet, objGet, h]
  | cons hd tl ih =>
    obtain ⟨k0, v0⟩ := hd
    by_cases h0 : k0 = k
    · subst h0
      simp [objSet, objGet, h]
    · simp [objSet, h0, objGet, ih]

theorem objGet_eq_none_of_not_mem (o : Param) (k : String)
    (h : k ∉ keys o) : objGet o k = none := by
  induction o with
  | nil => rfl
  | cons hd tl ih =>
    obtain ⟨k0, v0⟩ := hd
    have hcons : keys ((k0, v0) :: tl) = k0 :: keys tl := rfl
    rw [hcons, List.mem_cons] at h
    push_neg at h
    rw [objGet, if_neg (Ne.symm h.1), ih h.2]

theorem spread2_nil (a : Param) : spread2 a [] = a := rfl

theorem spread2_cons (a : Param) (k : String) (v : JValue) (b : Param) :
    spread2 a ((k, v) :: b) = spread2 (objSet a k v) b := rfl

/-- Lookup through a spread: a key of the second object wins, otherwise
the first object answers.  Requires the second object to be duplicate
free, as every real JS object is. -/
theorem objGet_spread2 (a b : Param) (k : String) (hb : ParamWF b) :
    objGet (spread2 a b) k = optOr (objGet b k) (objGet a k) := by
  induction b generalizing a with
  | nil => simp [spread2_nil, objGet, optOr]
  | cons hd tl ih =>
    obtain ⟨k0, v0⟩ := hd
    have hwf : k0 ∉ keys tl ∧ ParamWF tl := by
      simpa [ParamWF, keys] using hb
    rw [spread2_cons, ih _ hwf.2]
    by_cases h : k0 = k
    · subst h
      rw [objGet_eq_none_of_not_mem tl k0 hwf.1]
      simp [objGet, optOr, objGet_objSet_self]
    · rw [objGet_objSet_ne _ _ _ _ h]
      simp [objGet, h]

theorem objGet_spread2_nil_left (b : Param) (k : String) (hb : ParamWF b) :
    objGet (spread2 [] b) k = objGet b k := by
  rw [objGet_spread2 [] b k hb]
  simp [objGet, optOr_none_right]

/-! ### Grid data model (src/components/table/Table.tsx) -/

/-- A row of the grid: an opaque record, modelled like a parameter
object.  Structural equality of this representation coincides with
equality of `JSON.stringify` output used by the source. -/
abbrev Row := Param

/-- Field read `record[rowKey]`. -/
def rowGet (r : Row) (k : String) : Option JValue := objGet r k

/-- Sort descriptor passed to the loader. -/
structure TableSorter where
  name : String
  order : String
deriving DecidableEq

/-- The three staged edit collections of the grid, mirroring the
`DataSourceState` class fields `update`, `delete` and `create`. -/
structure DataSourceState where
  update : List Row := []
  delete : List Row := []
  create : List Row := []
deriving DecidableEq

/-- Component state of the grid together with the two instance fields
`REQUEST_PARAM` (here `requestParam`) and `dataSourceState`. -/
structure TableState where
  dataSource : List Row
  total : Nat
  loading : Bool
  page : Nat
  pageSize : Nat
  sorter : Option TableSorter
  editingKey : Option JValue
  requestParam : Param
  dataSourceState : DataSourceState
deriving DecidableEq

/-- The argument object handed to the caller-supplied `loadData`. -/
structure LoadRequest where
  page : Nat
  pageSize : Nat
  param : Param
  sorter : Option TableSorter
deriving DecidableEq

/-- The object the loader promise resolves with. -/
structure LoadResponse where
  dataSource : List Row
  total : Nat
deriving DecidableEq

/-- Mutation kind passed to the save hook. -/
inductive SaveType where
  | DELETE
  | UPDATE
  | CREATE
deriving DecidableEq

/-- One invocation of the caller-supplied save hook. -/
structure HookCall where
  record : Row
  type : SaveType
deriving DecidableEq

/-! ### Grid operations -/

/-- Count of entries of `u` whose key field equals `kv`; the filter is
exactly the one the source runs over `dataSourceState.update`. -/
def countKey (rowKey : String) (u : List Row) (kv : Option JValue) : Nat :=
  (u.filter (fun data => decide (rowGet data rowKey = kv))).length

/-- The for-loop of the per-cell save: walk `update`, and at the first
entry whose key matches, splice in the new values when the stored entry
differs by structural (`JSON.stringify`) equality, then break. -/
def updateReplaceFirst (rowKey : String) (values : Row) : List Row → List Row
  | [] => []
  | e :: rest =>
    if rowGet e rowKey = rowGet values rowKey then
      (if e ≠ values then values :: rest else e :: rest)
    else e :: updateReplaceFirst rowKey values rest

/-- Effect of one per-cell save on the `update` collection: replace in
place when the key is already present, otherwise push. -/
def updateEntry (rowKey : String) (update : List Row) (values : Row) : List Row :=
  if 0 < countKey rowKey update (rowGet values rowKey) then
    updateReplaceFirst rowKey values update
  else update ++ [values]

/-- The dataset snapshot produced by the per-cell save: every row whose
key matches is replaced by the new values. -/
def cellSave_newData (rowKey : String) (dataSource : List Row) (values : Row) : List Row :=
  dataSource.map (fun data =>
    if rowGet data rowKey = rowGet values rowKey then values else data)

/-- Outcome of the per-cell save callback installed by `onCell`. -/
structure CellSaveOutcome where
  dataSource : List Row
  update : List Row
  returned : Bool
deriving DecidableEq

/-- The per-cell save callback: updates the dataset snapshot and the
`update` collection before awaiting the save hook, then maps the hook
resolution (`none` models `undefined`) to the returned boolean. -/
def cellSave (rowKey : String) (dataSource update : List Row) (values : Row)
    (hookResult : Option Bool) : CellSaveOutcome :=
  { dataSource := cellSave_newData rowKey dataSource values
    update := updateEntry rowKey update values
    returned :=
      match hookResult with
      | none => true
      | some b => b }

/-- Clearing step of `editStash`: after all active cell editors have
hidden, the three staged collections are spliced empty. -/
def editStash (st : TableState) : TableState :=
  { st with dataSourceState := {} }

/-- First half of `requestLoadData`: `setState(\x7b loading: true \x7d)` before
the loader is invoked. -/
def requestLoadData_begin (st : TableState) : TableState :=
  { st with loading := true }

/-- The three-layer parameter merge of `requestLoadData`:
`\x7b...param, ...defaultParam, ...REQUEST_PARAM\x7d`. -/
def mergeRequestParam (defaultParam requestParam : Param) (param : Option Param) : Param :=
  spread2 (spread2 (spreadOpt [] param) defaultParam) requestParam

/-- The request object `requestLoadData` hands to the loader. -/
def requestLoadData_request (defaultParam : Param) (st : TableState)
    (page pageSize : Nat) (param : Option Param) (sorter : Option TableSorter) : LoadRequest :=
  { page := page
    pageSize := pageSize
    param := mergeRequestParam defaultParam st.requestParam param
    sorter := sorter }

/-- Resolution half of `requestLoadData`: store the response dataset and
total, drop the loading flag, then run `editStash`. -/
def requestLoadData_resolve (st : TableState) (resp : LoadResponse) : TableState :=
  editStash { st with
    dataSource := resp.dataSource
    total := resp.total
    loading := false }

/-- First statement of `reload`: a supplied parameter object replaces
`REQUEST_PARAM` wholly; a missing one leaves it untouched. -/
def reload_storeParam (st : TableState) (param : Option Param) : TableState :=
  match param with
  | some p => { st with requestParam := p }
  | none => st

/-- Page size used by `reload`: `state.pageSize || defaultPageSize`. -/
def reload_pageSize (defaultPageSize : Nat) (st : TableState) : Nat :=
  if st.pageSize ≠ 0 then st.pageSize else defaultPageSize

/-- The request `reload` issues, after storing the ad-hoc parameter. -/
def reload_request (defaultPageSize : Nat) (defaultParam : Param)
    (st : TableState) (param : Option Param) : LoadRequest :=
  let st' := reload_storeParam st param
  requestLoadData_request defaultParam st' st'.page
    (reload_pageSize defaultPageSize st') param st'.sorter

/-- Full state transition of a `reload` whose load promise resolves. -/
def reload_afterResolve (st : TableState) (param : Option Param)
    (resp : LoadResponse) : TableState :=
  requestLoadData_resolve (requestLoadData_begin (reload_storeParam st param)) resp

/-! ### Operating columns and row edit mode -/

/-- What the operating column renders for one row. -/
inductive OperatingRender where
  | confirmUndo
  | editor
  | nothing
deriving DecidableEq

/-- Dispatch of `getColumnOperatingRender`: the row being edited gets
the check and undo icons; otherwise the passed editor controls render
only while no row at all is being edited. -/
def getColumnOperatingRender (rowKey : String) (editingKey : Option JValue)
    (record : Row) : OperatingRender :=
  if rowGet record rowKey = editingKey then OperatingRender.confirmUndo
  else if editingKey = none then OperatingRender.editor
  else OperatingRender.nothing

/-- An attempt to enter row edit mode on `record`: the edit icon sets
`editingKey` to the key of the row, but only when it is rendered. -/
def tryEnterEdit (rowKey : String) (editingKey : Option JValue) (record : Row) :
    Option JValue :=
  match getColumnOperatingRender rowKey editingKey record with
  | OperatingRender.editor => rowGet record rowKey
  | _ => editingKey

/-- Resolution of the confirm-click save hook: any result other than an
explicit `false` clears `editingKey`. -/
def rowConfirmResolve (editingKey : Option JValue) (hookResult : Option Bool) :
    Option JValue :=
  if hookResult ≠ some false then none else editingKey

/-- Listener map the table attaches to a row: the caller event is used
only while no row is being edited. -/
def render_onRow (editingKey : Option JValue)
    (onRow : Option (Row → Nat → List String)) (record : Row) (index : Nat) :
    List String :=
  match editingKey with
  | none =>
    match onRow with
    | none => []
    | some f => f record index
  | some _ => []

/-- Click handler of the delete icon: the save hook is called with the
row and the literal tag DELETE. -/
def getColumnOperatingDel_click (record : Row) : HookCall :=
  { record := record, type := SaveType.DELETE }

/-- Resolution of the delete save hook: any result other than an
explicit `false` triggers a full reload with no parameter, whose own
resolution replaces the dataset from the response. -/
def getColumnOperatingDel_resolve (st : TableState) (hookResult : Option Bool)
    (resp : LoadResponse) : TableState :=
  if hookResult ≠ some false then reload_afterResolve st none resp else st

/-! ### Index column -/

/-- Render function of the `$index` column: the antd row index inside
the current page, one based. -/
def getColumnIndex_render (index : Nat) : Nat := index + 1

/-- The values the `$index` column renders over a page dataset. -/
def renderIndexColumn (dataSource : List Row) : List Nat :=
  (List.range dataSource.length).map getColumnIndex_render

/-! ### Tree widget (the unnamed tree source file) -/

/-- A tree node: key, title and the fetched children.  The `dataRef`
field of the source is the node itself, so it carries no extra data
here. -/
inductive TreeNodeData where
  | mk (key : String) (title : String) (children : List TreeNodeData)

def TreeNodeData.key : TreeNodeData → String
  | TreeNodeData.mk k _ _ => k

def TreeNodeData.title : TreeNodeData → String
  | TreeNodeData.mk _ t _ => t

def TreeNodeData.children : TreeNodeData → List TreeNodeData
  | TreeNodeData.mk _ _ c => c

/-- In-place assignment `node.children = cs`. -/
def TreeNodeData.setChildren : TreeNodeData → List TreeNodeData → TreeNodeData
  | TreeNodeData.mk k t _, cs => TreeNodeData.mk k t cs

/-- Replace the element at index `i` by its image under `f`. -/
def modifyAt (f : TreeNodeData → TreeNodeData) : Nat → List TreeNodeData → List TreeNodeData
  | _, [] => []
  | 0, t :: ts => f t :: ts
  | n + 1, t :: ts => t :: modifyAt f n ts

/-- Address a node of the forest by its index path. -/
def getNodeAt : List Nat → List TreeNodeData → Option TreeNodeData
  | [], _ => none
  | i :: rest, ts =>
    match ts.get? i with
    | none => none
    | some n => if rest.isEmpty then some n else getNodeAt rest n.children

/-- Mutation of the children field of the node at an index path,
leaving every other node of the object graph in place. -/
def setChildrenAt : List Nat → List TreeNodeData → List TreeNodeData → List TreeNodeData
  | [], _, ts => ts
  | i :: rest, cs, ts =>
    modifyAt (fun n =>
      if rest.isEmpty then n.setChildren cs
      else TreeNodeData.mk n.key n.title (setChildrenAt rest cs n.children)) i ts

/-- Tree component state: the root node list together with a version
that stands for the identity of the list reference; the shallow clone
`[...treeData]` creates a fresh reference with the same elements. -/
structure TreeState where
  treeData : List TreeNodeData
  rootVersion : Nat

/-- The expand callback `onLoadData`: a resolution with a nonempty list
assigns the children of the expanded node in place and replaces the root
list reference; an empty or absent list changes nothing. -/
def Tree_onLoadData (st : TreeState) (path : List Nat)
    (fetched : Option (List TreeNodeData)) : TreeState :=
  match fetched with
  | none => st
  | some cs =>
    if cs.isEmpty then st
    else
      { treeData := setChildrenAt path cs st.treeData
        rootVersion := st.rootVersion + 1 }

/-! ### Tree lemmas -/

theorem modifyAt_length (f : TreeNodeData → TreeNodeData) (i : Nat)
    (ts : List TreeNodeData) : (modifyAt f i ts).length = ts.length := by
  induction ts generalizing i with
  | nil => cases i <;> rfl
  | cons t ts ih =>
    cases i with
    | zero => rfl
    | succ n => simpa [modifyAt] using ih n

theorem modifyAt_get_self (f : TreeNodeData → TreeNodeData) (i : Nat)
    (ts : List TreeNodeData) : (modifyAt f i ts).get? i = (ts.get? i).map f := by
  induction ts generalizing i with
  | nil => cases i <;> rfl
  | cons t ts ih =>
    cases i with
    | zero => rfl
    | succ n => simpa [modifyAt] using ih n

theorem setChildrenAt_length (path : List Nat) (cs ts : List TreeNodeData) :
    (setChildrenAt path cs ts).length = ts.length := by
  cases path with
  | nil => rfl
  | cons i rest => simp [setChildrenAt, modifyAt_length]

theorem getNodeAt_setChildrenAt (path : List Nat) (cs ts : List TreeNodeData)
    (n : TreeNodeData) (h : getNodeAt path ts = some n) :
    getNodeAt path (setChildrenAt path cs ts) = some (n.setChildren cs) := by
  induction path generalizing ts n with
  | nil => simp [getNodeAt] at h
  | cons i rest ih =>
    rw [getNodeAt] at h
    cases hget : ts.get? i with
    | none => rw [hget] at h; simp at h
    | some m =>
      rw [hget] at h
      rw [setChildrenAt, getNodeAt, modifyAt_get_self, hget]
      simp only [Option.map_some']
      cases rest with
      | nil =>
        simp at h
        subst h
        simp
      | cons r rs =>
        simp at h ⊢
        exact ih m.children n h

/-! ### Update collection lemmas -/

theorem countKey_nil (rowKey : String) (kv : Option JValue) :
    countKey rowKey [] kv = 0 := rfl

theorem countKey_cons (rowKey : String) (e : Row) (u : List Row)
    (kv : Option JValue) :
    countKey rowKey (e :: u) kv =
      (if rowGet e rowKey = kv then 1 else 0) + countKey rowKey u kv := by
  by_cases h : rowGet e rowKey = kv
  · simp [countKey, List.filter, h, Nat.add_comm]
  · simp [countKey, List.filter, h]

theorem countKey_append_single (rowKey : String) (u : List Row) (v : Row)
    (kv : Option JValue) :
    countKey rowKey (u ++ [v]) kv =
      countKey rowKey u kv + (if rowGet v rowKey = kv then 1 else 0) := by
  by_cases h : rowGet v rowKey = kv
  · simp [countKey, List.filter_append, List.filter, h]
  · simp [countKey, List.filter_append, List.filter, h]

/-- Replacement in place never changes any per-key count: the entry it
replaces shares the key of the new values. -/
theorem countKey_updateReplaceFirst (rowKey : String) (v : Row) (u : List Row)
    (kv : Option JValue) :
    countKey rowKey (updateReplaceFirst rowKey v u) kv = countKey rowKey u kv := by
  induction u with
  | nil => rfl
  | cons e rest ih =>
    rw [updateReplaceFirst]
    by_cases h : rowGet e rowKey = rowGet v rowKey
    · rw [if_pos h]
      by_cases hev : e = v
      · simp [hev]
      · rw [if_pos hev, countKey_cons, countKey_cons, h]
    · rw [if_neg h, countKey_cons, countKey_cons, ih]

/-- Running the in-place replacement twice equals running it once. -/
theorem updateReplaceFirst_idem (rowKey : String) (v : Row) (u : List Row) :
    updateReplaceFirst rowKey v (updateReplaceFirst rowKey v u) =
      updateReplaceFirst rowKey v u := by
  induction u with
  | nil => rfl
  | cons e rest ih =>
    rw [updateReplaceFirst]
    by_cases h : rowGet e rowKey = rowGet v rowKey
    · rw [if_pos h]
      by_cases hev : e = v
      · simp [hev, updateReplaceFirst]
      · simp [hev, updateReplaceFirst]
    · rw [if_neg h, updateReplaceFirst, if_neg h, ih]

/-- When no entry matches the key of `v`, appending `v` and then running
the in-place replacement leaves the list unchanged. -/
theorem updateReplaceFirst_append_self (rowKey : String) (v : Row) (u : List Row)
    (h : countKey rowKey u (rowGet v rowKey) = 0) :
    updateReplaceFirst rowKey v (u ++ [v]) = u ++ [v] := by
  induction u with
  | nil => simp [updateReplaceFirst]
  | cons e rest ih =>
    rw [countKey_cons] at h
    have he : ¬ rowGet e rowKey = rowGet v rowKey := by
      intro hc
      rw [if_pos hc] at h
      omega
    have hrest : countKey rowKey rest (rowGet v rowKey) = 0 := by
      rw [if_neg he] at h
      omega
    rw [List.cons_append, updateReplaceFirst, if_neg he, ih hrest]

/-- Saving the same values twice is a no-op on the collection. -/
theorem updateEntry_idem (rowKey : String) (u : List Row) (v : Row) :
    updateEntry rowKey (updateEntry rowKey u v) v = updateEntry rowKey u v := by
  by_cases h : 0 < countKey rowKey u (rowGet v rowKey)
  · have hE : updateEntry rowKey u v = updateReplaceFirst rowKey v u := by
      rw [updateEntry, if_pos h]
    rw [hE, updateEntry, if_pos (by rw [countKey_updateReplaceFirst]; exact h),
      updateReplaceFirst_idem]
  · have h0 : countKey rowKey u (rowGet v rowKey) = 0 := by omega
    have hE : updateEntry rowKey u v = u ++ [v] := by
      rw [updateEntry, if_neg h]
    rw [hE, updateEntry,
      if_pos (show 0 < countKey rowKey (u ++ [v]) (rowGet v rowKey) by
        rw [countKey_append_single, h0, if_pos rfl]; omega),
      updateReplaceFirst_append_self rowKey v u h0]

/-- One save keeps every per-key count at most one. -/
theorem updateEntry_count_le (rowKey : String) (u : List Row) (v : Row)
    (h : ∀ kv, countKey rowKey u kv ≤ 1) (kv : Option JValue) :
    countKey rowKey (updateEntry rowKey u v) kv ≤ 1 := by
  rw [updateEntry]
  by_cases hpos : 0 < countKey rowKey u (rowGet v rowKey)
  · rw [if_pos hpos, countKey_updateReplaceFirst]
    exact h kv
  · rw [if_neg hpos, countKey_append_single]
    by_cases hkv : rowGet v rowKey = kv
    · have : countKey rowKey u kv = 0 := by
        rw [← hkv]; omega
      rw [this, if_pos hkv]
    · rw [if_neg hkv]
      simpa using h kv

/-- After a save the key of the saved values has exactly one entry. -/
theorem updateEntry_count_self (rowKey : String) (u : List Row) (v : Row)
    (h : countKey rowKey u (rowGet v rowKey) ≤ 1) :
    countKey rowKey (updateEntry rowKey u v) (rowGet v rowKey) = 1 := by
  rw [updateEntry]
  by_cases hpos : 0 < countKey rowKey u (rowGet v rowKey)
  · rw [if_pos hpos, countKey_updateReplaceFirst]
    omega
  · rw [if_neg hpos, countKey_append_single, if_pos rfl]
    omega

/-- Folding any sequence of saves from the empty collection keeps every
per-key count at most one. -/
theorem foldl_updateEntry_count_le (rowKey : String) (saves : List Row) :
    ∀ kv, countKey rowKey (saves.foldl (updateEntry rowKey) []) kv ≤ 1 := by
  have hgen : ∀ (saves : List Row) (u : List Row),
      (∀ kv, countKey rowKey u kv ≤ 1) →
      ∀ kv, countKey rowKey (saves.foldl (updateEntry rowKey) u) kv ≤ 1 := by
    intro saves
    induction saves with
    | nil => intro u hu kv; exact hu kv
    | cons s rest ih =>
      intro u hu kv
      exact ih (updateEntry rowKey u s) (updateEntry_count_le rowKey u s hu) kv
  exact hgen saves [] (fun kv => by rw [countKey_nil]; omega)

/-! ### Concrete fixtures used by witnesses and counterexamples -/

def C1_defaultParam : Param := [("a", JValue.jnum 1), ("b", JValue.jnum 2)]

def C1_adhocParam : Param := [("c", JValue.jnum 4)]

def C1_state : TableState :=
  { dataSource := [], total := 0, loading := false, page := 1, pageSize := 10
    sorter := none, editingKey := none
    requestParam := [("b", JValue.jnum 3)], dataSourceState := {} }

/-! ### Claim C1 -/

/-- C1 counterexample: with default parameter a:1, b:2, stored last-used
parameter b:3 and ad-hoc reload parameter c:4, the claim predicts an
effective value b:3.  The code first overwrites the stored parameter
with the ad-hoc object and then spreads the stored parameter last, so
the last-used b:3 is forgotten and the default b:2 survives. -/
theorem C1_param_layering_counterexample :
    objGet (reload_request 300 C1_defaultParam C1_state (some C1_adhocParam)).param "b"
      = some (JValue.jnum 2) ∧
    objGet (reload_request 300 C1_defaultParam C1_state (some C1_adhocParam)).param "b"
      ≠ some (JValue.jnum 3) := by
  decide

/-- C1 amended: for a reload invoked with an ad-hoc parameter object,
the effective request parameter is the merge of the static default
parameter and the ad-hoc parameter, with the ad-hoc parameter winning on
key collision; the previously stored last-used parameter has no effect
because it is wholly replaced by the ad-hoc object before the merge. -/
theorem C1_param_layering (defaultPageSize : Nat) (defaultParam p : Param)
    (st : TableState) (k : String)
    (hp : ParamWF p) (hd : ParamWF defaultParam) :
    objGet (reload_request defaultPageSize defaultParam st (some p)).param k
      = optOr (objGet p k) (objGet defaultParam k) := by
  have hparam : (reload_request defaultPageSize defaultParam st (some p)).param
      = spread2 (spread2 (spread2 [] p) defaultParam) p := rfl
  rw [hparam, objGet_spread2 _ _ _ hp, objGet_spread2 _ _ _ hd,
    objGet_spread2_nil_left _ _ hp]
  cases hpk : objGet p k
  · cases hdk : objGet defaultParam k <;> rfl
  · rfl

/-- C1 witness: the amended theorem applied at the scenario data. -/
theorem C1_param_layering_witness :
    ParamWF C1_adhocParam ∧ ParamWF C1_defaultParam ∧
    objGet (reload_request 300 C1_defaultParam C1_state (some C1_adhocParam)).param "a"
      = optOr (objGet C1_adhocParam "a") (objGet C1_defaultParam "a") :=
  ⟨by decide, by decide,
    C1_param_layering 300 C1_defaultParam C1_adhocParam C1_state "a" (by decide) (by decide)⟩

/-! ### Claim C2 -/

/-- C2: the per-cell save callback deduplicates by key: a second save of
structurally equal values for the same key is a no-op on the update
collection; starting from the empty collection, any sequence of saves
keeps every key at no more than one entry, and right after a save the
key of the saved values has exactly one entry. -/
theorem C2_update_dedup (rowKey : String) (ds : List Row) (saves : List Row)
    (v : Row) (r1 r2 : Option Bool) :
    (∀ u : List Row,
      (cellSave rowKey ds (cellSave rowKey ds u v r1).update v r2).update
        = (cellSave rowKey ds u v r1).update) ∧
    (∀ kv : Option JValue,
      countKey rowKey
        (saves.foldl (fun u w => (cellSave rowKey ds u w r1).update) []) kv ≤ 1) ∧
    countKey rowKey
      (cellSave rowKey ds
        (saves.foldl (fun u w => (cellSave rowKey ds u w r1).update) []) v r1).update
      (rowGet v rowKey) = 1 := by
  refine ⟨fun u => updateEntry_idem rowKey u v,
    foldl_updateEntry_count_le rowKey saves, ?_⟩
  exact updateEntry_count_self rowKey _ v
    (foldl_updateEntry_count_le rowKey saves (rowGet v rowKey))

/-! ### Claim C3 -/

def C3_row : Row := [("id", JValue.jnum 1), ("x", JValue.jnum 5)]

/-- C3 counterexample: the claim states that a hook resolving false
leaves the diff uncommitted on the optimistic per-cell path; but the
per-cell save pushes the entry into the update collection before the
hook resolves, so the diff is committed even when the hook resolves
false. -/
theorem C3_undefined_success_counterexample :
    (cellSave "id" [] [] C3_row (some false)).update = [C3_row] ∧
    (cellSave "id" [] [] C3_row (some false)).update ≠ [] := by
  decide

/-- C3 amended: a save hook resolving undefined causes exactly the state
transition of one resolving true on all three paths; a hook resolving
false neither exits row edit mode nor triggers the delete reload; the
per-cell diff entry however is committed before the hook resolves,
independent of the resolution value. -/
theorem C3_undefined_is_success :
    (∀ (rowKey : String) (ds upd : List Row) (v : Row),
      cellSave rowKey ds upd v none = cellSave rowKey ds upd v (some true)) ∧
    (∀ ek : Option JValue, rowConfirmResolve ek none = rowConfirmResolve ek (some true)) ∧
    (∀ ek : Option JValue, rowConfirmResolve ek (some false) = ek) ∧
    (∀ (st : TableState) (resp : LoadResponse),
      getColumnOperatingDel_resolve st none resp
        = getColumnOperatingDel_resolve st (some true) resp) ∧
    (∀ (st : TableState) (resp : LoadResponse),
      getColumnOperatingDel_resolve st (some false) resp = st) ∧
    (∀ (rowKey : String) (ds upd : List Row) (v : Row) (r : Option Bool),
      (cellSave rowKey ds upd v r).update = updateEntry rowKey upd v) := by
  refine ⟨fun _ _ _ _ => rfl, fun _ => rfl, fun _ => rfl,
    fun _ _ => rfl, fun _ _ => rfl, fun _ _ _ _ _ => rfl⟩

/-! ### Claim C4 -/

def C4_state : TableState :=
  { dataSource := [], total := 0, loading := false, page := 1, pageSize := 10
    sorter := none, editingKey := none, requestParam := []
    dataSourceState := { update := [[("id", JValue.jnum 7)]] } }

def C4_resp : LoadResponse := { dataSource := [], total := 0 }

/-- C4: whenever any staged edit collection is nonempty, a reload whose
load promise resolves leaves all three collections empty. -/
theorem C4_reload_clears_diffs (st : TableState) (param : Option Param)
    (resp : LoadResponse)
    (h : st.dataSourceState.create ≠ [] ∨ st.dataSourceState.update ≠ [] ∨
      st.dataSourceState.delete ≠ []) :
    (reload_afterResolve st param resp).dataSourceState.create = [] ∧
    (reload_afterResolve st param resp).dataSourceState.update = [] ∧
    (reload_afterResolve st param resp).dataSourceState.delete = [] :=
  ⟨rfl, rfl, rfl⟩

/-- C4 witness: the theorem applied at a state with one staged update. -/
theorem C4_reload_clears_diffs_witness :
    (C4_state.dataSourceState.create ≠ [] ∨ C4_state.dataSourceState.update ≠ [] ∨
      C4_state.dataSourceState.delete ≠ []) ∧
    ((reload_afterResolve C4_state none C4_resp).dataSourceState.create = [] ∧
     (reload_afterResolve C4_state none C4_resp).dataSourceState.update = [] ∧
     (reload_afterResolve C4_state none C4_resp).dataSourceState.delete = []) :=
  ⟨by decide, C4_reload_clears_diffs C4_state none C4_resp (by decide)⟩

/-! ### Claim C5 -/

def C5_record : Row := [("id", JValue.jnum 2)]

def C5_handlers : Row → Nat → List String := fun _ _ => ["onClick"]

/-- C5: while a row with key k is in edit mode, the operating column of
any row with a different key renders no edit control, so an attempt to
enter edit mode there leaves the editing key unchanged; the row listener
map is empty for every row while any row is being edited; and any two
rows simultaneously in edit mode share the same key value, so at most
one row key can be in edit mode at a time. -/
theorem C5_exclusive_row_edit (rowKey : String) (k : JValue) (record : Row)
    (onRow : Option (Row → Nat → List String)) (idx : Nat)
    (h : rowGet record rowKey ≠ some k) :
    tryEnterEdit rowKey (some k) record = some k ∧
    render_onRow (some k) onRow record idx = [] ∧
    (∀ r1 r2 : Row,
      getColumnOperatingRender rowKey (some k) r1 = OperatingRender.confirmUndo →
      getColumnOperatingRender rowKey (some k) r2 = OperatingRender.confirmUndo →
      rowGet r1 rowKey = rowGet r2 rowKey) := by
  refine ⟨?_, rfl, ?_⟩
  · rw [tryEnterEdit, getColumnOperatingRender, if_neg h]
    simp
  · intro r1 r2 h1 h2
    by_cases hr1 : rowGet r1 rowKey = some k
    · by_cases hr2 : rowGet r2 rowKey = some k
      · rw [hr1, hr2]
      · rw [getColumnOperatingRender, if_neg hr2] at h2
        simp at h2
    · rw [getColumnOperatingRender, if_neg hr1] at h1
      simp at h1

/-- C5 witness: the theorem applied at a row whose key differs from the
currently edited key. -/
theorem C5_exclusive_row_edit_witness :
    rowGet C5_record "id" ≠ some (JValue.jnum 1) ∧
    (tryEnterEdit "id" (some (JValue.jnum 1)) C5_record = some (JValue.jnum 1) ∧
     render_onRow (some (JValue.jnum 1)) (some C5_handlers) C5_record 0 = [] ∧
     (∀ r1 r2 : Row,
       getColumnOperatingRender "id" (some (JValue.jnum 1)) r1 = OperatingRender.confirmUndo →
       getColumnOperatingRender "id" (some (JValue.jnum 1)) r2 = OperatingRender.confirmUndo →
       rowGet r1 "id" = rowGet r2 "id")) :=
  ⟨by decide,
    C5_exclusive_row_edit "id" (JValue.jnum 1) C5_record (some C5_handlers) 0 (by decide)⟩

/-! ### Claim C6 -/

def C6_record : Row := [("id", JValue.jnum 3)]

def C6_state : TableState :=
  { dataSource := [C6_record], total := 1, loading := false, page := 1, pageSize := 10
    sorter := none, editingKey := none, requestParam := [], dataSourceState := {} }

def C6_resp : LoadResponse := { dataSource := [[("id", JValue.jnum 9)]], total := 41 }

/-- C6: the delete icon calls the save hook with the literal tag DELETE,
and for any hook resolution other than an explicit false the dataset and
total afterwards are exactly those of the reload response, never a local
splice of the old dataset. -/
theorem C6_delete_non_optimistic (record : Row) (st : TableState)
    (resp : LoadResponse) (r : Option Bool) (h : r ≠ some false) :
    (getColumnOperatingDel_click record).type = SaveType.DELETE ∧
    (getColumnOperatingDel_resolve st r resp).dataSource = resp.dataSource ∧
    (getColumnOperatingDel_resolve st r resp).total = resp.total := by
  refine ⟨rfl, ?_, ?_⟩ <;>
    (rw [getColumnOperatingDel_resolve, if_pos h]; rfl)

/-- C6 witness: the theorem applied at a hook resolving undefined. -/
theorem C6_delete_non_optimistic_witness :
    (none : Option Bool) ≠ some false ∧
    ((getColumnOperatingDel_click C6_record).type = SaveType.DELETE ∧
     (getColumnOperatingDel_resolve C6_state none C6_resp).dataSource = C6_resp.dataSource ∧
     (getColumnOperatingDel_resolve C6_state none C6_resp).total = C6_resp.total) :=
  ⟨by decide, C6_delete_non_optimistic C6_record C6_state C6_resp none (by decide)⟩

/-! ### Claim C7 -/

def C7_state : TableState :=
  { dataSource := [], total := 0, loading := false, page := 2, pageSize := 10
    sorter := none, editingKey := none, requestParam := [("q", JValue.jstr "x")]
    dataSourceState := {} }

def C7_resp : LoadResponse := { dataSource := [[("id", JValue.jnum 1)]], total := 3 }

/-- C7 counterexample: the claim states the loading flag is set false
before the request is issued; the code sets it true there. -/
theorem C7_load_counterexample :
    (requestLoadData_begin C7_state).loading = true ∧
    (requestLoadData_begin C7_state).loading ≠ false := by
  decide

/-- C7 amended: a load merges the three parameter layers with the stored
request parameter strongest and the ad-hoc parameter weakest, requests
page, size, merged parameter and sort descriptor, sets the loading flag
true before the request, and on resolution replaces the dataset snapshot
and total, sets the loading flag false and clears all three edit-diff
collections. -/
theorem C7_load_semantics (defaultParam p : Param) (st : TableState)
    (page pageSize : Nat) (sorter : Option TableSorter) (resp : LoadResponse)
    (k : String)
    (hp : ParamWF p) (hd : ParamWF defaultParam) (hr : ParamWF st.requestParam) :
    (requestLoadData_begin st).loading = true ∧
    (requestLoadData_request defaultParam st page pageSize (some p) sorter).page = page ∧
    (requestLoadData_request defaultParam st page pageSize (some p) sorter).pageSize = pageSize ∧
    (requestLoadData_request defaultParam st page pageSize (some p) sorter).sorter = sorter ∧
    objGet (requestLoadData_request defaultParam st page pageSize (some p) sorter).param k
      = optOr (objGet st.requestParam k)
          (optOr (objGet defaultParam k) (objGet p k)) ∧
    (requestLoadData_resolve (requestLoadData_begin st) resp).loading = false ∧
    (requestLoadData_resolve (requestLoadData_begin st) resp).dataSource = resp.dataSource ∧
    (requestLoadData_resolve (requestLoadData_begin st) resp).total = resp.total ∧
    (requestLoadData_resolve (requestLoadData_begin st) resp).dataSourceState = {} := by
  refine ⟨rfl, rfl, rfl, rfl, ?_, rfl, rfl, rfl, rfl⟩
  have hparam : (requestLoadData_request defaultParam st page pageSize (some p) sorter).param
      = spread2 (spread2 (spread2 [] p) defaultParam) st.requestParam := rfl
  rw [hparam, objGet_spread2 _ _ _ hr, objGet_spread2 _ _ _ hd,
    objGet_spread2_nil_left _ _ hp]

/-- C7 witness: the amended theorem applied at concrete data. -/
theorem C7_load_semantics_witness :
    ParamWF [("c", JValue.jnum 4)] ∧ ParamWF C1_defaultParam ∧
    ParamWF C7_state.requestParam ∧
    ((requestLoadData_begin C7_state).loading = true ∧
     (requestLoadData_request C1_defaultParam C7_state 2 10 (some [("c", JValue.jnum 4)]) none).page = 2 ∧
     (requestLoadData_request C1_defaultParam C7_state 2 10 (some [("c", JValue.jnum 4)]) none).pageSize = 10 ∧
     (requestLoadData_request C1_defaultParam C7_state 2 10 (some [("c", JValue.jnum 4)]) none).sorter = none ∧
     objGet (requestLoadData_request C1_defaultParam C7_state 2 10 (some [("c", JValue.jnum 4)]) none).param "q"
       = optOr (objGet C7_state.requestParam "q")
           (optOr (objGet C1_defaultParam "q") (objGet [("c", JValue.jnum 4)] "q")) ∧
     (requestLoadData_resolve (requestLoadData_begin C7_state) C7_resp).loading = false ∧
     (requestLoadData_resolve (requestLoadData_begin C7_state) C7_resp).dataSource = C7_resp.dataSource ∧
     (requestLoadData_resolve (requestLoadData_begin C7_state) C7_resp).total = C7_resp.total ∧
     (requestLoadData_resolve (requestLoadData_begin C7_state) C7_resp).dataSourceState = {}) :=
  ⟨by decide, by decide, by decide,
    C7_load_semantics C1_defaultParam [("c", JValue.jnum 4)] C7_state 2 10 none C7_resp "q"
      (by decide) (by decide) (by decide)⟩

/-! ### Claim C8 -/

def C8_state : TableState :=
  { dataSource := [], total := 0, loading := false, page := 3, pageSize := 10
    sorter := none, editingKey := none, requestParam := [], dataSourceState := {} }

def C8_resp : LoadResponse := { dataSource := List.replicate 10 [], total := 57 }

/-- C8: the index column renders the one-based position of a row inside
the currently loaded page: the value at position i of the loaded page is
i + 1 for every page, regardless of the page number carried in the
state. -/
theorem C8_index_page_local (st : TableState) (resp : LoadResponse) (i : Nat)
    (h : i < resp.dataSource.length) :
    (renderIndexColumn (requestLoadData_resolve (requestLoadData_begin st) resp).dataSource).length
      = resp.dataSource.length ∧
    (renderIndexColumn (requestLoadData_resolve (requestLoadData_begin st) resp).dataSource).get? i
      = some (getColumnIndex_render i) ∧
    getColumnIndex_render i = i + 1 := by
  have hds : (requestLoadData_resolve (requestLoadData_begin st) resp).dataSource
      = resp.dataSource := rfl
  rw [hds]
  refine ⟨by simp [renderIndexColumn], ?_, rfl⟩
  rw [renderIndexColumn, List.get?_eq_getElem?, List.getElem?_map,
    List.getElem?_range h]
  rfl

/-- C8 witness: page 3 with page size 10 renders the values 1 to 10, not
21 to 30. -/
theorem C8_index_page_local_witness :
    4 < C8_resp.dataSource.length ∧
    ((renderIndexColumn (requestLoadData_resolve (requestLoadData_begin C8_state) C8_resp).dataSource).length
       = C8_resp.dataSource.length ∧
     (renderIndexColumn (requestLoadData_resolve (requestLoadData_begin C8_state) C8_resp).dataSource).get? 4
       = some (getColumnIndex_render 4) ∧
     getColumnIndex_render 4 = 4 + 1) ∧
    renderIndexColumn C8_resp.dataSource = [1, 2, 3, 4, 5, 6, 7, 8, 9, 10] :=
  ⟨by decide, C8_index_page_local C8_state C8_resp 4 (by decide), by decide⟩

/-! ### Claim C9 -/

def C9_child : TreeNodeData := TreeNodeData.mk "c1" "child" []

def C9_root : TreeNodeData := TreeNodeData.mk "r1" "root" []

def C9_treeState : TreeState := { treeData := [C9_root], rootVersion := 0 }

/-- C9: when the loadChildren promise resolves with a nonempty list, the
children field of the target node is set to that list in place and the
root list reference is replaced by a shallow clone of equal length; an
empty or absent resolution modifies neither the node nor the root tree
state. -/
theorem C9_tree_load_merge (st : TreeState) (path : List Nat)
    (cs : List TreeNodeData) (n : TreeNodeData)
    (hcs : cs ≠ []) (hn : getNodeAt path st.treeData = some n) :
    Tree_onLoadData st path none = st ∧
    Tree_onLoadData st path (some []) = st ∧
    getNodeAt path (Tree_onLoadData st path (some cs)).treeData
      = some (n.setChildren cs) ∧
    (Tree_onLoadData st path (some cs)).treeData.length = st.treeData.length ∧
    (Tree_onLoadData st path (some cs)).rootVersion = st.rootVersion + 1 := by
  have hne : cs.isEmpty = false := by
    cases cs with
    | nil => exact absurd rfl hcs
    | cons a l => rfl
  have hT : Tree_onLoadData st path (some cs)
      = { treeData := setChildrenAt path cs st.treeData
          rootVersion := st.rootVersion + 1 } := by
    simp [Tree_onLoadData, hne]
  refine ⟨rfl, rfl, ?_, ?_, ?_⟩
  · rw [hT]
    exact getNodeAt_setChildrenAt path cs st.treeData n hn
  · rw [hT]
    exact setChildrenAt_length path cs st.treeData
  · rw [hT]

/-- C9 witness: the theorem applied to a one-node tree receiving one
child. -/
theorem C9_tree_load_merge_witness :
    [C9_child] ≠ ([] : List TreeNodeData) ∧
    getNodeAt [0] C9_treeState.treeData = some C9_root ∧
    (Tree_onLoadData C9_treeState [0] none = C9_treeState ∧
     Tree_onLoadData C9_treeState [0] (some []) = C9_treeState ∧
     getNodeAt [0] (Tree_onLoadData C9_treeState [0] (some [C9_child])).treeData
       = some (C9_root.setChildren [C9_child]) ∧
     (Tree_onLoadData C9_treeState [0] (some [C9_child])).treeData.length
       = C9_treeState.treeData.length ∧
     (Tree_onLoadData C9_treeState [0] (some [C9_child])).rootVersion
       = C9_treeState.rootVersion + 1) :=
  ⟨List.cons_ne_nil _ _, rfl,
    C9_tree_load_merge C9_treeState [0] [C9_child] C9_root (List.cons_ne_nil _ _) rfl⟩

/-! ### Claim C10 -/

def C10_state : TableState :=
  { dataSource := [], total := 0, loading := false, page := 1, pageSize := 10
    sorter := none, editingKey := none
    requestParam := [("b", JValue.jnum 3)], dataSourceState := {} }

/-- C10: a reload invoked with a parameter object replaces the stored
last-used request parameter wholly by that object, with no merge against
the previous one; a reload with no parameter leaves the stored parameter
unchanged and the next request merges it in, where it wins over the
default parameter. -/
theorem C10_reload_param_store (st : TableState) (p : Param)
    (defaultPageSize : Nat) (defaultParam : Param) (k : String)
    (hp : p ≠ []) (hr : ParamWF st.requestParam) (hd : ParamWF defaultParam) :
    (reload_storeParam st (some p)).requestParam = p ∧
    reload_storeParam st none = st ∧
    objGet (reload_request defaultPageSize defaultParam st none).param k
      = optOr (objGet st.requestParam k) (objGet defaultParam k) := by
  refine ⟨rfl, rfl, ?_⟩
  have hparam : (reload_request defaultPageSize defaultParam st none).param
      = spread2 (spread2 [] defaultParam) st.requestParam := rfl
  rw [hparam, objGet_spread2 _ _ _ hr, objGet_spread2_nil_left _ _ hd]

/-- C10 witness: the theorem applied at concrete data. -/
theorem C10_reload_param_store_witness :
    C1_adhocParam ≠ ([] : Param) ∧ ParamWF C10_state.requestParam ∧
    ParamWF C1_defaultParam ∧
    ((reload_storeParam C10_state (some C1_adhocParam)).requestParam = C1_adhocParam ∧
     reload_storeParam C10_state none = C10_state ∧
     objGet (reload_request 300 C1_defaultParam C10_state none).param "b"
       = optOr (objGet C10_state.requestParam "b") (objGet C1_defaultParam "b")) :=
  ⟨by decide, by decide, by decide,
    C10_reload_param_store C10_state C1_adhocParam 300 C1_defaultParam "b"
      (by decide) (by decide) (by decide)⟩

end Kotomi
